import Mathlib

/-!
Verification development for `code_analyzer.py` (gridaco/bot).

The program walks a source tree, filters files by extension and ignore
rules, streams each file through a model-serving endpoint and writes the
response to a report file.  We give a shallow embedding of its pure data
manipulations (paths, templating, ignore patterns, glob matching) and an
explicit event-trace semantics for its effectful parts (`analyze_file` and
the per-file loop of `main`), and prove the specification claims about
them.
-/

/-- Embedding of `pathlib` pure paths: a path is its tuple of components
(`Path.parts`).  Absolute paths carry their root marker as a first
component, exactly as `pathlib` exposes it in `parts`. -/
structure PyPath where
  parts : List String
deriving DecidableEq, Repr

/-- `p / s` on paths: appends one component (pathlib `__truediv__`). -/
def PyPath.div (p : PyPath) (s : String) : PyPath := ⟨p.parts ++ [s]⟩

/-- `p / q` on paths with a (relative) path on the right: appends the
components. -/
def PyPath.divPath (p q : PyPath) : PyPath := ⟨p.parts ++ q.parts⟩

/-- `file.relative_to(repo)` (pathlib): defined when `repo`'s components
are an initial segment of `file`'s, otherwise `ValueError` (modelled as
`none`). -/
def PyPath.relativeTo (f repo : PyPath) : Option PyPath :=
  if f.parts.take repo.parts.length = repo.parts then
    some ⟨f.parts.drop repo.parts.length⟩
  else
    none

/-- Pathlib `name`: the final component (`""` for an empty path). -/
def PyPath.name (p : PyPath) : String := p.parts.getLast?.getD ""

/-- Pathlib `parent`: the path without its final component. -/
def PyPath.parent (p : PyPath) : PyPath := ⟨p.parts.dropLast⟩

/-- `str(p)` for the relative paths this program prints and matches:
components joined by `/`.  (The absolute-path root marker and the
rendering `"."` of an empty relative path are irrelevant to the claims:
every path the program formats is strictly below the root.) -/
def PyPath.toStr (p : PyPath) : String := String.intercalate "/" p.parts

/-- Index of the last `'.'` in a component, if any (CPython
`str.rfind('.')` restricted to a hit). -/
def rfindDotIdx : List Char → Option Nat
  | [] => none
  | c :: cs =>
    match rfindDotIdx cs with
    | some i => some (i + 1)
    | none => if c = '.' then some 0 else none

/-- CPython `PurePath.suffix` keeps the last dot only when it is neither
the first nor the last character of the name; this computes that cut
position. -/
def pySuffixIdx (name : List Char) : Option Nat :=
  match rfindDotIdx name with
  | some i => if 0 < i ∧ i + 1 < name.length then some i else none
  | none => none

/-- Pathlib `suffix` of a name string. -/
def pySuffix (name : String) : String :=
  match pySuffixIdx name.data with
  | some i => ⟨name.data.drop i⟩
  | none => ""

/-- Pathlib `stem` of a name string. -/
def pyStem (name : String) : String :=
  match pySuffixIdx name.data with
  | some i => ⟨name.data.take i⟩
  | none => name

/-- Pathlib `suffix` of a path. -/
def PyPath.suffix (p : PyPath) : String := pySuffix p.name

/-- Pathlib `with_suffix(s)`: replaces the name by `stem + s`.  (The
`ValueError` checks on the argument are not modelled; the program only
ever passes `old_suffix + ".md"`, which is valid.) -/
def PyPath.withSuffix (p : PyPath) (s : String) : PyPath :=
  ⟨p.parts.dropLast ++ [pyStem p.name ++ s]⟩

/-- `repo.rglob("*" ++ pattern)` yields exactly the paths strictly below
`repo`; this is the "strictly below" test (`repo.parts` is a proper
initial segment of `f.parts`). -/
def PyPath.isUnder (f repo : PyPath) : Bool :=
  (f.parts.take repo.parts.length == repo.parts) &&
    decide (repo.parts.length < f.parts.length)

/-- CPython `str.splitlines` on `\n`-separated text: like splitting on
`'\n'` but without a trailing empty piece.  (The exotic line boundaries
`\r`, `\v`, ... that `splitlines` also recognises are not modelled.) -/
def pySplitlines (s : String) : List String :=
  let parts := s.splitOn "\n"
  if parts.getLast? = some "" then parts.dropLast else parts

/-- The filesystem as the program observes it: the set of regular files
(`Path.is_file()`), and the readable text of each existing file
(`Path.exists()` / `Path.read_text()`): `none` means the path does not
exist. -/
structure FS where
  files : List PyPath
  contents : PyPath → Option String

/-- `load_ignore_patterns(repo_path, *ignore_files)` (lines 28-34):
starts from an empty pattern list and, for each listed ignore file that
exists under the root, appends that file's lines.  The returned
`pathspec.PathSpec` is modelled by its list of pattern lines; matching
is `matchFile` below. -/
def load_ignore_patterns (fs : FS) (repo : PyPath) (ignoreFiles : List String) : List String :=
  ignoreFiles.flatMap fun g =>
    match fs.contents (repo.div g) with
    | some text => pySplitlines text
    | none => []

/-- `pathspec.PathSpec.match_file`: each pattern line either does not
apply to the file (`none`: no match, or a null pattern such as a blank
or comment line) or matches with an include/exclude polarity
(`some true` / `some false`, the latter for `!`-negated patterns); the
last applicable pattern wins and an empty result means "not matched".
The per-line `gitwildmatch` semantics is kept abstract as `gm`. -/
def matchFile (gm : String → String → Option Bool) (patterns : List String)
    (file : String) : Bool :=
  ((patterns.filterMap fun p => gm p file).getLast?).getD false

/-- `should_ignore(file, ignore_spec, repo_path)` (lines 37-39): matches
the file's path relative to the root against the compiled spec.  (When
`file` is not below `repo`, `relative_to` would raise; that branch is
unreachable in the program and modelled as `false`.) -/
def should_ignore (gm : String → String → Option Bool) (file : PyPath)
    (spec : List String) (repo : PyPath) : Bool :=
  match file.relativeTo repo with
  | some rel => matchFile gm spec rel.toStr
  | none => false

/-- `fnmatch`-style glob matching of a pattern against a single name
component, as used by `rglob`: `*` matches any run of characters, `?`
any single character, anything else itself.  (Character classes `[...]`
are not modelled; the program's pattern argument is a plain extension
such as `.ts`.) -/
def globMatch : List Char → List Char → Bool
  | [], n => n.isEmpty
  | c :: ps, n =>
    if c = '*' then n.tails.any fun t => globMatch ps t
    else
      match n with
      | [] => false
      | d :: nt => (c == '?' || c == d) && globMatch ps nt

/-- `list_files(repo_path, pattern)` (lines 42-50): compiles the ignore
spec from `.gitignore` and `.botignore`, then keeps every regular file
below the root whose name matches the glob `"*" ++ pattern`, that has no
`".git"` component, and that the ignore spec does not match.
(`rglob` enumerates all paths below the root and `f.is_file()` keeps the
regular files; both are folded into filtering `fs.files`.) -/
def list_files (gm : String → String → Option Bool) (fs : FS)
    (repo : PyPath) (pattern : String) : List PyPath :=
  let ignore_spec := load_ignore_patterns fs repo [".gitignore", ".botignore"]
  fs.files.filter fun f =>
    f.isUnder repo &&
    globMatch ('*' :: pattern.data) f.name.data &&
    !(f.parts.contains ".git") &&
    !(should_ignore gm f ignore_spec repo)

def promptPart1 : String :=
  "\n<system>\nYou\x27re a senior code reviewer. Carefully analyze the provided code and respond strictly according to the following format:\n\n## Major Issues\nList only critical issues affecting performance, security, correctness, maintainability, or readability. If none, explicitly state \"None\".\n\n| Issue                             | Description                     | Recommendation               |\n|-----------------------------------|---------------------------------|------------------------------|\n| (e.g., Memory Leak in line X)     | (Brief description of the issue)| (How to fix/improve it)      |\n\n## Suggestions for Refactoring\nSuggest major structural improvements or refactorings that substantially enhance code clarity, efficiency, or maintainability. If none, explicitly state \"None\".\n\n| Code Area                         | Suggested Refactoring           | Benefit                      |\n|-----------------------------------|---------------------------------|------------------------------|\n| (e.g., Function XYZ)              | (Description of refactoring)    | (How it improves the code)   |\n\n## Out-of-tech\nList any old or outdated tech, libraries, or practices that should be updated. If none, explicitly state \"None\".\n\n@examples\n- use functional components over the class components\n- use tailwindcss over styled-components\n\n\n## Documentation\nIf required, if this module needs explicit documentation, please mention it here. Not all modules needs documentation. If none, explicitly state \"None\".\nIf this contributes to a business logic, or core-foundation, it should be documented.\n\n- check if the documentation is required\n- check if the documentation is sufficient\n- check if the current documentation holds any issues (wrong information, outdated, etc.)\n\n\n## Notes\nAvoid minor stylistic or trivial issues. If the code meets good standards and no major changes are needed, you can summarize briefly by stating \"The code is fine. No major issues found.\"\n</system>\n\n<file>\n"

def promptPart2 : String :=
  "\n<file>\n\n<user-code>\n\x60\x60\x60\n"

def promptPart3 : String :=
  "\n\x60\x60\x60\n</user-code>\n"

/-- `mkprompt(root, file, content)` (lines 53-102): the fixed review
template with the two f-string substitutions.  The function's only use
of `root` and `file` is `str(file.relative_to(root))`; `relStr` is that
string. -/
def mkprompt (relStr content : String) : String :=
  promptPart1 ++ relStr ++ promptPart2 ++ content ++ promptPart3

/-- The output-path computation of `analyze_file` (lines 114-115):
`repo_path / "analysis" / file.relative_to(repo_path)`, then `.md`
appended via `with_suffix(suffix + ".md")`. -/
def output_file_analyze (repo file : PyPath) : Option PyPath :=
  match file.relativeTo repo with
  | some rel =>
    let o := (repo.div "analysis").divPath rel
    some (o.withSuffix (o.suffix ++ ".md"))
  | none => none

/-- The output-path computation of `main` (lines 206-207), transcribed
independently: it duplicates the same two lines of code. -/
def output_file_main (repo file : PyPath) : Option PyPath :=
  match file.relativeTo repo with
  | some rel =>
    let o := (repo.div "analysis").divPath rel
    some (o.withSuffix (o.suffix ++ ".md"))
  | none => none

/-- Observable effects of processing one file, in program order. -/
inductive Event where
  | logError : String → Event
  | logInfo : String → Event
  | mkdirParents : PyPath → Event
  | inferCall : String → Event
  | yielded : String → Event
  | wrote : PyPath → String → Event
deriving DecidableEq, Repr

/-- The environment one `analyze_file` call runs against: the outcome of
`file.read_text` (`Except.error` = the exception's message), the chunks
the inference stream yields before it either completes (`streamOk`) or
raises, each chunk's optional `'response'` field, and whether the final
`write_text` succeeds. -/
structure FileWorld where
  read : Except String String
  chunks : List (Option String)
  streamOk : Bool
  writeOk : Bool

/-- `analyze_file(file, repo_path)` (lines 105-134) as an event trace:
read (on failure, log and return); build the prompt from the relative
path and content; compute the output path and create its parent
directories; call the model and yield each chunk's `'response'` text
(missing key contributes `""`), accumulating the concatenation; on a
stream exception log and return; finally write the accumulated text (on
failure, log).  The `relative_to` failure branches are unreachable
(`main` only passes files below the root) and yield the empty trace. -/
def analyze_file (w : FileWorld) (file repo : PyPath) : List Event :=
  match w.read with
  | Except.error e =>
    [Event.logError ("Error reading " ++ file.toStr ++ ": " ++ e)]
  | Except.ok content =>
    match file.relativeTo repo with
    | none => []
    | some rel =>
      let prompt := mkprompt rel.toStr content
      match output_file_analyze repo file with
      | none => []
      | some output_file =>
        Event.mkdirParents output_file.parent ::
        Event.inferCall prompt ::
        ((w.chunks.map fun ch => Event.yielded (ch.getD "")) ++
          (if w.streamOk then
            (if w.writeOk then
              [Event.wrote output_file
                (String.join (w.chunks.map fun ch => ch.getD ""))]
            else
              [Event.logError ("Error writing analysis to " ++ output_file.toStr)])
          else
            [Event.logError ("Error analyzing " ++ file.toStr)]))

/-- The body of `main`'s loop for one file (lines 205-217): recompute the
output path; if it exists and `--overwrite` was not given, log a skip
message; otherwise run `process_analysis` (which drains `analyze_file`)
and log completion.  `existsFn` is the `output_file.exists()` check. -/
def processFile (existsFn : PyPath → Bool) (w : FileWorld)
    (repo file : PyPath) (overwrite : Bool) : List Event :=
  match output_file_main repo file, file.relativeTo repo with
  | some output_file, some rel =>
    if existsFn output_file && !overwrite then
      [Event.logInfo ("Skipping " ++ rel.toStr ++ " (analysis exists)")]
    else
      analyze_file w file repo ++
        [Event.logInfo ("Completed analysis for " ++ rel.toStr)]
  | _, _ => []

/-- `main`'s `for file in files` loop: each file is processed in turn,
unconditionally reaching the next one. -/
def mainLoop (existsFn : PyPath → Bool) (wf : PyPath → FileWorld)
    (repo : PyPath) (overwrite : Bool) : List PyPath → List Event
  | [] => []
  | f :: rest =>
    processFile existsFn (wf f) repo f overwrite ++
      mainLoop existsFn wf repo overwrite rest

/-- Number of inference calls in a trace. -/
def countInfer (es : List Event) : Nat :=
  es.countP fun e =>
    match e with
    | Event.inferCall _ => true
    | _ => false

/-- Patterns free of the glob metacharacters the matcher interprets. -/
def noGlobMeta (p : List Char) : Bool :=
  p.all fun c => !(c == '*' || c == '?' || c == '[')

/-- Sample root used by concrete witnesses. -/
def repoW : PyPath := ⟨["r"]⟩

/-- Sample source file used by concrete witnesses. -/
def fileW : PyPath := ⟨["r", "a.ts"]⟩

/-- Relative path of `fileW` under `repoW`. -/
def relW : PyPath := ⟨["a.ts"]⟩

/-- A run in which everything succeeds. -/
def wOk : FileWorld := ⟨Except.ok "code", [some "hi", none, some " there"], true, true⟩

/-- A run in which the inference stream raises after one chunk. -/
def wStreamFail : FileWorld := ⟨Except.ok "code", [some "hi"], false, true⟩

/-- Literal-line matcher used as a concrete `gitwildmatch` instance in
witnesses: a pattern line applies exactly to the file equal to it. -/
def gmLit : String → String → Option Bool :=
  fun pat f => if pat == f then some true else none

/-- Concrete filesystem for witnesses: three `.ts` files (one inside
`.git`, one ignored via `.gitignore`) and one `.js` file. -/
def fsW : FS :=
  ⟨[⟨["r", "a.ts"]⟩, ⟨["r", "b.js"]⟩, ⟨["r", ".git", "c.ts"]⟩, ⟨["r", "ig.ts"]⟩],
    fun p => if p = ⟨["r", ".gitignore"]⟩ then some "ig.ts" else none⟩

/-- Filesystem with no files and no ignore files. -/
def fsEmpty : FS := ⟨[], fun _ => none⟩

/-- Concrete paths for the report-path witnesses. -/
def f9a : PyPath := ⟨["r", "a", "x.ts"]⟩

def f9b : PyPath := ⟨["r", "b.ts"]⟩

def o9a : PyPath := ⟨["r", "analysis", "a", "x.ts.md"]⟩

def o9b : PyPath := ⟨["r", "analysis", "b.ts.md"]⟩

theorem mk_append_mk (a b : List Char) : (⟨a⟩ : String) ++ (⟨b⟩ : String) = ⟨a ++ b⟩ := rfl

theorem pyStem_append_pySuffix (n : String) : pyStem n ++ pySuffix n = n := by
  unfold pyStem pySuffix
  cases h : pySuffixIdx n.data with
  | none => simp
  | some i =>
    rw [mk_append_mk, List.take_append_drop]

theorem str_append_right_cancel {a b s : String} (h : a ++ s = b ++ s) : a = b := by
  apply String.ext
  have h2 := congrArg String.data h
  simp only [String.data_append] at h2
  exact List.append_cancel_right h2

theorem withSuffix_suffix_append (p : PyPath) (s : String) :
    p.withSuffix (p.suffix ++ s) = ⟨p.parts.dropLast ++ [p.name ++ s]⟩ := by
  unfold PyPath.withSuffix PyPath.suffix
  congr 2
  rw [← String.append_assoc, pyStem_append_pySuffix]

theorem isUnder_iff {f repo : PyPath} :
    f.isUnder repo = true ↔
      f.parts.take repo.parts.length = repo.parts ∧
        repo.parts.length < f.parts.length := by
  simp [PyPath.isUnder]

theorem relativeTo_of_isUnder {f repo : PyPath} (h : f.isUnder repo = true) :
    f.relativeTo repo = some ⟨f.parts.drop repo.parts.length⟩ := by
  rcases isUnder_iff.mp h with ⟨h1, _⟩
  simp [PyPath.relativeTo, h1]

theorem parts_decomp_of_isUnder {f repo : PyPath} (h : f.isUnder repo = true) :
    f.parts = repo.parts ++ f.parts.drop repo.parts.length := by
  rcases isUnder_iff.mp h with ⟨h1, _⟩
  conv_lhs => rw [← List.take_append_drop repo.parts.length f.parts]
  rw [h1]

theorem drop_ne_nil_of_isUnder {f repo : PyPath} (h : f.isUnder repo = true) :
    f.parts.drop repo.parts.length ≠ [] := by
  rcases isUnder_iff.mp h with ⟨_, h2⟩
  intro hnil
  have h3 := congrArg List.length hnil
  simp only [List.length_drop, List.length_nil] at h3
  omega

theorem output_file_analyze_of_isUnder {repo f : PyPath} (h : f.isUnder repo = true) :
    output_file_analyze repo f =
      some ⟨repo.parts ++ "analysis" ::
        ((f.parts.drop repo.parts.length).dropLast ++
          [(f.parts.drop repo.parts.length).getLast?.getD "" ++ ".md"])⟩ := by
  have hne : f.parts.drop repo.parts.length ≠ [] := drop_ne_nil_of_isUnder h
  simp only [output_file_analyze, relativeTo_of_isUnder h]
  rw [withSuffix_suffix_append]
  simp only [PyPath.div, PyPath.divPath, PyPath.name, Option.some.injEq, PyPath.mk.injEq]
  rw [List.dropLast_append_of_ne_nil _ hne, List.getLast?_append_of_ne_nil _ hne]
  simp [List.append_assoc]

theorem append_singleton_inj {xs ys : List String} {x y : String}
    (h : xs ++ [x] = ys ++ [y]) : xs = ys ∧ x = y := by
  constructor
  · have h2 := congrArg List.dropLast h
    simpa [List.dropLast_concat] using h2
  · have h2 := congrArg List.getLast? h
    simp only [List.getLast?_concat] at h2
    exact Option.some.inj h2

theorem analyze_file_readError {w : FileWorld} {file repo : PyPath} {e : String}
    (hr : w.read = Except.error e) :
    analyze_file w file repo =
      [Event.logError ("Error reading " ++ file.toStr ++ ": " ++ e)] := by
  simp only [analyze_file, hr]

theorem analyze_file_ok {w : FileWorld} {file repo rel out : PyPath} {c : String}
    (hr : w.read = Except.ok c) (hrel : file.relativeTo repo = some rel)
    (ho : output_file_analyze repo file = some out) :
    analyze_file w file repo =
      Event.mkdirParents out.parent ::
      Event.inferCall (mkprompt rel.toStr c) ::
      ((w.chunks.map fun ch => Event.yielded (ch.getD "")) ++
        (if w.streamOk then
          (if w.writeOk then
            [Event.wrote out (String.join (w.chunks.map fun ch => ch.getD ""))]
          else
            [Event.logError ("Error writing analysis to " ++ out.toStr)])
        else
          [Event.logError ("Error analyzing " ++ file.toStr)])) := by
  simp only [analyze_file, hr, hrel, ho]

theorem countInfer_yields (l : List (Option String)) :
    countInfer (l.map fun ch => Event.yielded (ch.getD "")) = 0 := by
  simp only [countInfer, List.countP_map]
  rw [List.countP_eq_zero]
  intro a _
  simp [Function.comp]

/-- Claim C8: the report path computed by `main` to decide skipping and
the report path computed and written by `analyze_file` are the same
function of the file and the root. -/
theorem C8_output_path_equivalence :
    ∀ repo file : PyPath, output_file_main repo file = output_file_analyze repo file :=
  fun _ _ => rfl

/-- Claim C1, counterexample: for root `r` and source file `r/a/b.ts`
the report is written to `r/analysis/a/b.ts.md`, whose parent directory
`r/analysis/a` differs from the source file's parent `r/a`: the report
is not a sibling of the source. -/
theorem C1_counterexample :
    output_file_analyze ⟨["r"]⟩ ⟨["r", "a", "b.ts"]⟩ =
        some ⟨["r", "analysis", "a", "b.ts.md"]⟩ ∧
      PyPath.parent ⟨["r", "analysis", "a", "b.ts.md"]⟩ ≠
        PyPath.parent ⟨["r", "a", "b.ts"]⟩ := by
  constructor
  · decide
  · decide

/-- Claim C1 (amended): for every analyzed file, the report writer
persists the model's output as a markdown file at the mirrored path
`repo_path/analysis/<relative path>.md` (not as a sibling of the
source), creating the report file's parent directories before
writing. -/
theorem C1_amended_report_location (w : FileWorld) (repo file rel : PyPath) (c : String)
    (hr : w.read = Except.ok c) (hrel : file.relativeTo repo = some rel)
    (hs : w.streamOk = true) (hw : w.writeOk = true) :
    ∃ out, output_file_analyze repo file = some out ∧
      analyze_file w file repo =
        Event.mkdirParents out.parent ::
        Event.inferCall (mkprompt rel.toStr c) ::
        ((w.chunks.map fun ch => Event.yielded (ch.getD "")) ++
          [Event.wrote out (String.join (w.chunks.map fun ch => ch.getD ""))]) := by
  have ho : output_file_analyze repo file =
      some (((repo.div "analysis").divPath rel).withSuffix
        (((repo.div "analysis").divPath rel).suffix ++ ".md")) := by
    simp [output_file_analyze, hrel]
  refine ⟨_, ho, ?_⟩
  rw [analyze_file_ok hr hrel ho, hs, hw]
  simp

theorem C1_witness :
    ∃ out, output_file_analyze repoW fileW = some out ∧
      analyze_file wOk fileW repoW =
        Event.mkdirParents out.parent ::
        Event.inferCall (mkprompt relW.toStr "code") ::
        ((wOk.chunks.map fun ch => Event.yielded (ch.getD "")) ++
          [Event.wrote out (String.join (wOk.chunks.map fun ch => ch.getD ""))]) :=
  C1_amended_report_location wOk repoW fileW relW "code" rfl (by decide) rfl rfl

/-- Claim C3, counterexample: for a file whose read raises, the error is
logged and the file skipped, but zero inference calls are attempted, not
"exactly one" as the claim states. -/
theorem C3_counterexample :
    countInfer (analyze_file ⟨Except.error "boom", [], true, true⟩
        ⟨["r", "x", "c.ts"]⟩ ⟨["r"]⟩) ≠ 1 ∧
      analyze_file ⟨Except.error "boom", [], true, true⟩ ⟨["r", "x", "c.ts"]⟩ ⟨["r"]⟩ =
        [Event.logError "Error reading r/x/c.ts: boom"] := by
  constructor
  · decide
  · rfl

/-- Claim C3 (amended): if reading the file or the inference call raises,
the program logs the error and skips the file: at most one inference
call is attempted (none when reading raises, exactly one when the
inference call raises), no report is written for it, and the loop
continues with the next file. -/
theorem C3_amended_log_and_skip (existsFn : PyPath → Bool) (wf : PyPath → FileWorld)
    (w : FileWorld) (repo file rel : PyPath) (rest : List PyPath) (e c : String) :
    (w.read = Except.error e →
      analyze_file w file repo =
          [Event.logError ("Error reading " ++ file.toStr ++ ": " ++ e)] ∧
        countInfer (analyze_file w file repo) = 0) ∧
    (w.read = Except.ok c → file.relativeTo repo = some rel → w.streamOk = false →
      countInfer (analyze_file w file repo) = 1 ∧
      (∀ q s, Event.wrote q s ∉ analyze_file w file repo) ∧
      Event.logError ("Error analyzing " ++ file.toStr) ∈ analyze_file w file repo) ∧
    mainLoop existsFn wf repo false (file :: rest) =
      processFile existsFn (wf file) repo file false ++
        mainLoop existsFn wf repo false rest := by
  refine ⟨?_, ?_, rfl⟩
  · intro hr
    rw [analyze_file_readError hr]
    exact ⟨rfl, rfl⟩
  · intro hr hrel hs
    have ho : output_file_analyze repo file =
        some (((repo.div "analysis").divPath rel).withSuffix
          (((repo.div "analysis").divPath rel).suffix ++ ".md")) := by
      simp [output_file_analyze, hrel]
    rw [analyze_file_ok hr hrel ho, hs]
    refine ⟨?_, ?_, ?_⟩
    · simp only [if_false, Bool.false_eq_true]
      simp [countInfer, List.countP_cons, List.countP_append, countInfer_yields,
        List.countP_map, List.countP_eq_zero]
    · intro q s
      simp [List.mem_cons, List.mem_append, List.mem_map]
    · simp

theorem C3_witness :
    analyze_file ⟨Except.error "io", [], true, true⟩ ⟨["r", "b.ts"]⟩ repoW =
        [Event.logError ("Error reading " ++ PyPath.toStr ⟨["r", "b.ts"]⟩ ++ ": " ++ "io")] ∧
      countInfer (analyze_file ⟨Except.error "io", [], true, true⟩ ⟨["r", "b.ts"]⟩ repoW) = 0 :=
  (C3_amended_log_and_skip (fun _ => false) (fun _ => ⟨Except.error "io", [], true, true⟩)
    ⟨Except.error "io", [], true, true⟩ repoW ⟨["r", "b.ts"]⟩ ⟨["b.ts"]⟩ [] "io" "c").1 rfl

/-- Claim C10: `analyze_file` creates the report's parent directories
before the inference call, so when the stream raises the trace still
contains the directory creation (as its first event, before the
inference call) even though no report is written. -/
theorem C10_mkdir_before_inference (w : FileWorld) (repo file rel : PyPath) (c : String)
    (hr : w.read = Except.ok c) (hrel : file.relativeTo repo = some rel)
    (hs : w.streamOk = false) :
    ∃ out, output_file_analyze repo file = some out ∧
      analyze_file w file repo =
        Event.mkdirParents out.parent ::
        Event.inferCall (mkprompt rel.toStr c) ::
        ((w.chunks.map fun ch => Event.yielded (ch.getD "")) ++
          [Event.logError ("Error analyzing " ++ file.toStr)]) ∧
      Event.mkdirParents out.parent ∈ analyze_file w file repo ∧
      (∀ q s, Event.wrote q s ∉ analyze_file w file repo) := by
  have ho : output_file_analyze repo file =
      some (((repo.div "analysis").divPath rel).withSuffix
        (((repo.div "analysis").divPath rel).suffix ++ ".md")) := by
    simp [output_file_analyze, hrel]
  have htr := analyze_file_ok hr hrel ho
  rw [hs] at htr
  simp only [if_false, Bool.false_eq_true] at htr
  refine ⟨_, ho, ?_, ?_, ?_⟩
  · exact htr
  · rw [htr]; simp
  · intro q s
    rw [htr]
    simp [List.mem_cons, List.mem_append, List.mem_map]

theorem C10_witness :
    ∃ out, output_file_analyze repoW fileW = some out ∧
      analyze_file wStreamFail fileW repoW =
        Event.mkdirParents out.parent ::
        Event.inferCall (mkprompt relW.toStr "code") ::
        ((wStreamFail.chunks.map fun ch => Event.yielded (ch.getD "")) ++
          [Event.logError ("Error analyzing " ++ fileW.toStr)]) ∧
      Event.mkdirParents out.parent ∈ analyze_file wStreamFail fileW repoW ∧
      (∀ q s, Event.wrote q s ∉ analyze_file wStreamFail fileW repoW) :=
  C10_mkdir_before_inference wStreamFail repoW fileW relW "code" rfl (by decide) rfl

/-- Claim C4: when the stream completes without raising, the persisted
report content is exactly the concatenation, in stream order, of the
`'response'` fragments of the yielded chunks (a missing key contributing
the empty string), with no transformation. -/
theorem C4_report_content (w : FileWorld) (repo file rel : PyPath) (c : String)
    (hr : w.read = Except.ok c) (hrel : file.relativeTo repo = some rel)
    (hs : w.streamOk = true) :
    (w.writeOk = true → ∃ out, output_file_analyze repo file = some out ∧
      Event.wrote out (String.join (w.chunks.map fun ch => ch.getD "")) ∈
        analyze_file w file repo) ∧
    (∀ q s, Event.wrote q s ∈ analyze_file w file repo →
      s = String.join (w.chunks.map fun ch => ch.getD "")) := by
  have ho : output_file_analyze repo file =
      some (((repo.div "analysis").divPath rel).withSuffix
        (((repo.div "analysis").divPath rel).suffix ++ ".md")) := by
    simp [output_file_analyze, hrel]
  have htr := analyze_file_ok hr hrel ho
  rw [hs] at htr
  simp only [if_true] at htr
  constructor
  · intro hw
    rw [hw] at htr
    simp only [if_true] at htr
    refine ⟨_, ho, ?_⟩
    rw [htr]
    simp
  · intro q s hmem
    rw [htr] at hmem
    cases hwk : w.writeOk with
    | true =>
      rw [hwk] at hmem
      simp only [if_true] at hmem
      simp [List.mem_cons, List.mem_append, List.mem_map] at hmem
      exact hmem.2
    | false =>
      rw [hwk] at hmem
      simp only [if_false, Bool.false_eq_true] at hmem
      simp [List.mem_cons, List.mem_append, List.mem_map] at hmem

theorem C4_witness :
    (wOk.writeOk = true → ∃ out, output_file_analyze repoW fileW = some out ∧
      Event.wrote out (String.join (wOk.chunks.map fun ch => ch.getD "")) ∈
        analyze_file wOk fileW repoW) ∧
    (∀ q s, Event.wrote q s ∈ analyze_file wOk fileW repoW →
      s = String.join (wOk.chunks.map fun ch => ch.getD "")) :=
  C4_report_content wOk repoW fileW relW "code" rfl (by decide) rfl

/-- Claim C6: the prompt passed to the inference call is the fixed review
template with exactly two substitutions, the file's root-relative path
and its contents; every inference call in the trace carries exactly this
prompt, so files with equal relative path and contents produce identical
prompts. -/
theorem C6_prompt_template (w : FileWorld) (repo file rel : PyPath) (c : String)
    (hr : w.read = Except.ok c) (hrel : file.relativeTo repo = some rel) :
    Event.inferCall (promptPart1 ++ rel.toStr ++ promptPart2 ++ c ++ promptPart3) ∈
        analyze_file w file repo ∧
    ∀ p, Event.inferCall p ∈ analyze_file w file repo →
      p = promptPart1 ++ rel.toStr ++ promptPart2 ++ c ++ promptPart3 := by
  have ho : output_file_analyze repo file =
      some (((repo.div "analysis").divPath rel).withSuffix
        (((repo.div "analysis").divPath rel).suffix ++ ".md")) := by
    simp [output_file_analyze, hrel]
  have htr := analyze_file_ok hr hrel ho
  have hmk : mkprompt rel.toStr c =
      promptPart1 ++ rel.toStr ++ promptPart2 ++ c ++ promptPart3 := by
    simp [mkprompt, String.append_assoc]
  constructor
  · rw [htr, ← hmk]
    simp
  · intro p hp
    rw [htr] at hp
    rw [← hmk]
    cases hsk : w.streamOk with
    | true =>
      rw [hsk] at hp
      simp only [if_true] at hp
      cases hwk : w.writeOk with
      | true =>
        rw [hwk] at hp
        simp only [if_true] at hp
        simp [List.mem_cons, List.mem_append, List.mem_map] at hp
        exact hp
      | false =>
        rw [hwk] at hp
        simp only [if_false, Bool.false_eq_true] at hp
        simp [List.mem_cons, List.mem_append, List.mem_map] at hp
        exact hp
    | false =>
      rw [hsk] at hp
      simp only [if_false, Bool.false_eq_true] at hp
      simp [List.mem_cons, List.mem_append, List.mem_map] at hp
      exact hp

theorem C6_witness :
    Event.inferCall (promptPart1 ++ relW.toStr ++ promptPart2 ++ "code" ++ promptPart3) ∈
        analyze_file wOk fileW repoW ∧
    ∀ p, Event.inferCall p ∈ analyze_file wOk fileW repoW →
      p = promptPart1 ++ relW.toStr ++ promptPart2 ++ "code" ++ promptPart3 :=
  C6_prompt_template wOk repoW fileW relW "code" rfl (by decide)

/-- Claim C5: when the report file already exists and `--overwrite` is
not given, the file is skipped: the loop body only logs, makes no
inference call and writes nothing, leaving the existing report's content
unchanged; with `--overwrite` the file is processed regardless. -/
theorem C5_skip_existing (existsFn : PyPath → Bool) (w : FileWorld)
    (repo file out rel : PyPath)
    (ho : output_file_main repo file = some out)
    (hrel : file.relativeTo repo = some rel) :
    (existsFn out = true →
      processFile existsFn w repo file false =
          [Event.logInfo ("Skipping " ++ rel.toStr ++ " (analysis exists)")] ∧
        (∀ p, Event.inferCall p ∉ processFile existsFn w repo file false) ∧
        (∀ q s, Event.wrote q s ∉ processFile existsFn w repo file false)) ∧
    processFile existsFn w repo file true =
      analyze_file w file repo ++
        [Event.logInfo ("Completed analysis for " ++ rel.toStr)] := by
  constructor
  · intro hex
    have hpf : processFile existsFn w repo file false =
        [Event.logInfo ("Skipping " ++ rel.toStr ++ " (analysis exists)")] := by
      simp [processFile, ho, hrel, hex]
    refine ⟨hpf, ?_, ?_⟩
    · intro p
      rw [hpf]
      simp
    · intro q s
      rw [hpf]
      simp
  · simp [processFile, ho, hrel]

theorem C5_witness :
    ((fun _ => true : PyPath → Bool) ⟨["r", "analysis", "a.ts.md"]⟩ = true →
      processFile (fun _ => true) wOk repoW fileW false =
          [Event.logInfo ("Skipping " ++ relW.toStr ++ " (analysis exists)")] ∧
        (∀ p, Event.inferCall p ∉ processFile (fun _ => true) wOk repoW fileW false) ∧
        (∀ q s, Event.wrote q s ∉ processFile (fun _ => true) wOk repoW fileW false)) ∧
    processFile (fun _ => true) wOk repoW fileW true =
      analyze_file wOk fileW repoW ++
        [Event.logInfo ("Completed analysis for " ++ relW.toStr)] :=
  C5_skip_existing (fun _ => true) wOk repoW fileW ⟨["r", "analysis", "a.ts.md"]⟩ relW
    (by decide) (by decide)

theorem noGlobMeta_spec {p : List Char} (h : noGlobMeta p = true) :
    ∀ c ∈ p, c ≠ '*' ∧ c ≠ '?' := by
  intro c hc
  have h2 := List.all_eq_true.mp h c hc
  simp only [Bool.not_eq_true', Bool.or_eq_false_iff, beq_eq_false_iff_ne] at h2
  exact ⟨h2.1.1, h2.1.2⟩

theorem globMatch_literal {p : List Char} (hp : ∀ c ∈ p, c ≠ '*' ∧ c ≠ '?') :
    ∀ n : List Char, globMatch p n = true ↔ n = p := by
  induction p with
  | nil =>
    intro n
    cases n <;> simp [globMatch]
  | cons c ps ih =>
    intro n
    have hc := hp c (List.mem_cons_self c ps)
    have hps : ∀ x ∈ ps, x ≠ '*' ∧ x ≠ '?' :=
      fun x hx => hp x (List.mem_cons_of_mem c hx)
    cases n with
    | nil =>
      simp [globMatch, hc.1]
    | cons d nt =>
      simp only [globMatch, if_neg hc.1]
      rw [Bool.and_eq_true, Bool.or_eq_true]
      constructor
      · rintro ⟨h1, h2⟩
        have hdn : nt = ps := (ih hps nt).mp h2
        rcases h1 with h1 | h1
        · exact absurd (beq_iff_eq.mp h1) hc.2
        · have hcd : c = d := beq_iff_eq.mp h1
          rw [hdn, hcd]
      · intro h1
        rcases List.cons_eq_cons.mp h1 with ⟨hd, ht⟩
        exact ⟨Or.inr (beq_iff_eq.mpr hd.symm), (ih hps nt).mpr ht⟩

theorem contains_eq_false_iff {l : List String} {a : String} :
    l.contains a = false ↔ a ∉ l := by
  rw [← Bool.not_eq_true]
  simp [List.contains]

theorem globMatch_star {p : List Char} (hp : ∀ c ∈ p, c ≠ '*' ∧ c ≠ '?') (n : List Char) :
    globMatch ('*' :: p) n = true ↔ ∃ s, s ++ p = n := by
  have h0 : globMatch ('*' :: p) n = n.tails.any fun t => globMatch p t := by
    simp [globMatch]
  rw [h0, List.any_eq_true]
  constructor
  · rintro ⟨t, ht, hm⟩
    have h1 := (globMatch_literal hp t).mp hm
    rcases (List.mem_tails t n).mp ht with ⟨s, hs⟩
    refine ⟨s, ?_⟩
    rw [← h1]
    exact hs
  · rintro ⟨s, hs⟩
    exact ⟨p, (List.mem_tails p n).mpr ⟨s, hs⟩, (globMatch_literal hp p).mpr rfl⟩

/-- Claim C2: `list_files` returns exactly the regular files below the
root whose names end with the suffix pattern, excluding every path with
a `".git"` component and every file whose root-relative path the
compiled ignore rules match (for patterns free of glob
metacharacters). -/
theorem C2_list_files_spec (gm : String → String → Option Bool) (fs : FS)
    (repo : PyPath) (pattern : String) (f : PyPath)
    (hp : noGlobMeta pattern.data = true) :
    f ∈ list_files gm fs repo pattern ↔
      f ∈ fs.files ∧ f.isUnder repo = true ∧
        (∃ s, s ++ pattern.data = f.name.data) ∧
        ¬ ".git" ∈ f.parts ∧
        should_ignore gm f
          (load_ignore_patterns fs repo [".gitignore", ".botignore"]) repo = false := by
  have hglob := globMatch_star (noGlobMeta_spec hp) f.name.data
  simp only [list_files, List.mem_filter, Bool.and_eq_true, Bool.not_eq_true',
    and_assoc]
  constructor
  · rintro ⟨h1, h2, h3, h4, h5⟩
    exact ⟨h1, h2, hglob.mp h3, contains_eq_false_iff.mp h4, h5⟩
  · rintro ⟨h1, h2, h3, h4, h5⟩
    exact ⟨h1, h2, hglob.mpr h3, contains_eq_false_iff.mpr h4, h5⟩

theorem C2_witness :
    (⟨["r", "a.ts"]⟩ : PyPath) ∈ list_files gmLit fsW repoW ".ts" ↔
      (⟨["r", "a.ts"]⟩ : PyPath) ∈ fsW.files ∧
        PyPath.isUnder ⟨["r", "a.ts"]⟩ repoW = true ∧
        (∃ s, s ++ ".ts".data = (PyPath.name ⟨["r", "a.ts"]⟩).data) ∧
        ¬ ".git" ∈ (PyPath.parts ⟨["r", "a.ts"]⟩) ∧
        should_ignore gmLit ⟨["r", "a.ts"]⟩
          (load_ignore_patterns fsW repoW [".gitignore", ".botignore"]) repoW = false :=
  C2_list_files_spec gmLit fsW repoW ".ts" ⟨["r", "a.ts"]⟩ (by decide)

/-- Claim C7: `load_ignore_patterns` compiles its rules from the
concatenated lines of each listed ignore file (`.gitignore` then
`.botignore`) that exists under the root; a missing ignore file
contributes no patterns, and when neither exists the compiled rule set
matches no file, whatever the per-pattern semantics. -/
theorem C7_load_ignore_patterns (fs : FS) (repo : PyPath) :
    load_ignore_patterns fs repo [".gitignore", ".botignore"] =
        (match fs.contents (repo.div ".gitignore") with
          | some t => pySplitlines t
          | none => []) ++
        (match fs.contents (repo.div ".botignore") with
          | some t => pySplitlines t
          | none => []) ∧
      (fs.contents (repo.div ".gitignore") = none →
        fs.contents (repo.div ".botignore") = none →
        load_ignore_patterns fs repo [".gitignore", ".botignore"] = [] ∧
        ∀ gm file, matchFile gm
          (load_ignore_patterns fs repo [".gitignore", ".botignore"]) file = false) := by
  constructor
  · simp [load_ignore_patterns]
  · intro hg hb
    have he : load_ignore_patterns fs repo [".gitignore", ".botignore"] = [] := by
      simp [load_ignore_patterns, hg, hb]
    refine ⟨he, fun gm file => ?_⟩
    rw [he]
    rfl

theorem C7_witness :
    matchFile (fun _ _ => some true)
        (load_ignore_patterns fsEmpty repoW [".gitignore", ".botignore"]) "a.ts" = false :=
  ((C7_load_ignore_patterns fsEmpty repoW).2 rfl rfl).2 (fun _ _ => some true) "a.ts"

theorem pyPath_eq_of_parts {p q : PyPath} (h : p.parts = q.parts) : p = q := by
  cases p
  cases q
  cases h
  rfl

/-- Claim C9: the report path appends `.md` after the file's existing
suffix and mirrors the relative directory structure under `analysis/`;
the map from source file to report path is injective, and a report path
never equals a source path lying outside `analysis/`. -/
theorem C9_report_path_injective (repo f1 f2 o1 o2 : PyPath)
    (h1 : f1.isUnder repo = true) (h2 : f2.isUnder repo = true)
    (ho1 : output_file_analyze repo f1 = some o1)
    (ho2 : output_file_analyze repo f2 = some o2) :
    o1.parts = repo.parts ++ "analysis" ::
        ((f1.parts.drop repo.parts.length).dropLast ++ [f1.name ++ ".md"]) ∧
      (o1 = o2 → f1 = f2) ∧
      (∀ g : PyPath, g.isUnder repo = true →
        (g.parts.drop repo.parts.length).head? ≠ some "analysis" → o1 ≠ g) := by
  have hne1 := drop_ne_nil_of_isUnder h1
  have hne2 := drop_ne_nil_of_isUnder h2
  have hd1 := parts_decomp_of_isUnder h1
  have hd2 := parts_decomp_of_isUnder h2
  have hname1 : f1.name = (f1.parts.drop repo.parts.length).getLast?.getD "" := by
    unfold PyPath.name
    conv_lhs => rw [hd1]
    rw [List.getLast?_append_of_ne_nil _ hne1]
  have hname2 : f2.name = (f2.parts.drop repo.parts.length).getLast?.getD "" := by
    unfold PyPath.name
    conv_lhs => rw [hd2]
    rw [List.getLast?_append_of_ne_nil _ hne2]
  have ho1' := output_file_analyze_of_isUnder h1
  rw [ho1] at ho1'
  have hp1 : o1.parts = repo.parts ++ "analysis" ::
      ((f1.parts.drop repo.parts.length).dropLast ++
        [(f1.parts.drop repo.parts.length).getLast?.getD "" ++ ".md"]) :=
    congrArg PyPath.parts (Option.some.inj ho1')
  have ho2' := output_file_analyze_of_isUnder h2
  rw [ho2] at ho2'
  have hp2 : o2.parts = repo.parts ++ "analysis" ::
      ((f2.parts.drop repo.parts.length).dropLast ++
        [(f2.parts.drop repo.parts.length).getLast?.getD "" ++ ".md"]) :=
    congrArg PyPath.parts (Option.some.inj ho2')
  refine ⟨by rw [hp1, hname1], ?_, ?_⟩
  · intro heq
    have hpe : o1.parts = o2.parts := congrArg PyPath.parts heq
    rw [hp1, hp2] at hpe
    have h3 := List.append_cancel_left hpe
    rcases List.cons_eq_cons.mp h3 with ⟨-, h4⟩
    rcases append_singleton_inj h4 with ⟨h5, h6⟩
    have h7 : (f1.parts.drop repo.parts.length).getLast?.getD "" =
        (f2.parts.drop repo.parts.length).getLast?.getD "" :=
      str_append_right_cancel h6
    have hrel : f1.parts.drop repo.parts.length = f2.parts.drop repo.parts.length := by
      have hg1 : (f1.parts.drop repo.parts.length).getLast? =
          some ((f1.parts.drop repo.parts.length).getLast hne1) :=
        List.getLast?_eq_getLast _ hne1
      have hg2 : (f2.parts.drop repo.parts.length).getLast? =
          some ((f2.parts.drop repo.parts.length).getLast hne2) :=
        List.getLast?_eq_getLast _ hne2
      rw [← List.dropLast_append_getLast hne1, ← List.dropLast_append_getLast hne2, h5]
      congr 1
      rw [hg1, hg2] at h7
      simpa using h7
    apply pyPath_eq_of_parts
    rw [hd1, hd2, hrel]
  · intro g hg hhead heq
    have hpe : o1.parts = g.parts := congrArg PyPath.parts heq
    rw [hp1, parts_decomp_of_isUnder hg] at hpe
    have h3 := List.append_cancel_left hpe
    apply hhead
    rw [← h3]
    rfl

theorem C9_witness :
    o9a.parts = repoW.parts ++ "analysis" ::
        ((f9a.parts.drop repoW.parts.length).dropLast ++ [f9a.name ++ ".md"]) ∧
      (o9a = o9b → f9a = f9b) ∧
      (∀ g : PyPath, g.isUnder repoW = true →
        (g.parts.drop repoW.parts.length).head? ≠ some "analysis" → o9a ≠ g) :=
  C9_report_path_injective repoW f9a f9b o9a o9b
    (by decide) (by decide) (by decide) (by decide)
